import Mathlib

/-!
Shallow embedding of `genometreetk/type_genome_utils.py` (GenomeTreeTk):
quality scoring, QC filtering with failure counters, symmetric ANI/AF
reconciliation, NCBI/GTDB type-strain classification, and the cluster
report writer/reader.

Python floats are modelled as exact rationals (`ℚ`), integer metadata
fields as `ℤ`, optional string fields (which may be `None` in the
metadata table) as `Option String`, dictionaries as association lists
or explicit functions, and file contents as `List Char`.
-/

namespace GenomeTreeTk

/-- Per-genome metadata record; field set and optionality follow the
fields accessed by `quality_score`, `pass_qc` and the type-strain
classifiers (the loader `read_gtdb_metadata` is outside this module). -/
structure GenomeMetadata where
  gtdb_taxonomy : List String
  checkm_completeness : ℚ
  checkm_contamination : ℚ
  checkm_strain_heterogeneity_100 : ℚ
  contig_count : ℤ
  n50_contigs : ℤ
  scaffold_count : ℤ
  ambiguous_bases : ℤ
  total_gap_length : ℤ
  ssu_count : ℤ
  ssu_length : Option ℤ
  ncbi_assembly_level : Option String
  ncbi_genome_representation : Option String
  ncbi_refseq_category : Option String
  ncbi_type_material_designation : Option String
  ncbi_molecule_count : ℤ
  ncbi_unspanned_gaps : ℤ
  ncbi_spanned_gaps : ℤ
  ncbi_genome_category : Option String
  gtdb_type_designation : Option String
  deriving DecidableEq

/-- `NCBI_TYPE_SPECIES` label set from the source (a Python `set`,
modelled as a list with membership). -/
def NCBI_TYPE_SPECIES : List String :=
  ["assembly from type material",
   "assembly from neotype material",
   "assembly designated as neotype"]

/-- `NCBI_PROXYTYPE` label set from the source. -/
def NCBI_PROXYTYPE : List String := ["assembly from proxytype material"]

/-- `GTDB_TYPE_SPECIES` label set from the source. -/
def GTDB_TYPE_SPECIES : List String :=
  ["type strain of species", "type strain of neotype"]

/-- Python `x in S` for an optional string against a label set
(`None in S` is false). -/
def optIn (o : Option String) (xs : List String) : Bool :=
  match o with
  | some s => xs.contains s
  | none => false

/-- Python truthiness of an optional string (`None` and `''` are falsy). -/
def optTruthy (o : Option String) : Bool :=
  match o with
  | some s => !s.isEmpty
  | none => false

/-- Whether the first character list is an initial segment of the second. -/
def seqStarts : List Char → List Char → Bool
  | [], _ => true
  | _ :: _, [] => false
  | a :: as, b :: bs => a == b && seqStarts as bs

/-- Whether `sub` occurs as a contiguous run inside `l`
(Python `sub in s` substring test). -/
def seqOccurs (sub : List Char) : List Char → Bool
  | [] => sub.isEmpty
  | c :: cs => seqStarts sub (c :: cs) || seqOccurs sub cs

/-- Python `s.lower()`, as a character list (ASCII lowercasing). -/
def pyLower (s : String) : List Char :=
  s.toList.map Char.toLower

/-- Python `s.lower() in labels` for a label set. -/
def lowerIn (s : String) (xs : List String) : Bool :=
  (xs.map String.toList).contains (pyLower s)

/-- An ANI/AF matrix: the Python dict-of-dicts
`ani_af[gid1][gid2] = (ani, af)` as a nested association list. -/
def AniAfMatrix := List (String × List (String × (ℚ × ℚ)))

/-- Directional access `ani_af[g1][g2]`: the measurement from `g1` to
`g2`, `none` when either the outer or the inner key is absent. -/
def aniAfLookup (m : AniAfMatrix) (g1 g2 : String) : Option (ℚ × ℚ) :=
  match List.lookup g1 m with
  | some row => List.lookup g2 row
  | none => none

/-- `symmetric_ani(ani_af, gid1, gid2)`: `(0, 0)` unless both
directional measurements are present, else the componentwise maxima. -/
def symmetric_ani (ani_af : AniAfMatrix) (gid1 gid2 : String) : ℚ × ℚ :=
  match List.lookup gid1 ani_af, List.lookup gid2 ani_af with
  | some row1, some row2 =>
    match List.lookup gid2 row1, List.lookup gid1 row2 with
    | some cur, some rev => (max rev.1 cur.1, max rev.2 cur.2)
    | _, _ => (0, 0)
  | _, _ => (0, 0)

/-- Python `o and o.lower() in labels` for an optional string field. -/
def lowerDesignationIn (o : Option String) (labels : List String) : Bool :=
  match o with
  | some s => lowerIn s labels
  | none => false

/-- The truthy-and-lowercase-membership test on the NCBI assembly level
(`'complete genome'` or `'chromosome'`). -/
def assemblyLevelOk (o : Option String) : Bool :=
  match o with
  | some s => !s.isEmpty &&
      (pyLower s == "complete genome".toList || pyLower s == "chromosome".toList)
  | none => false

/-- The truthy-and-lowercase test on the NCBI genome representation
(`'full'`). -/
def representationFull (o : Option String) : Bool :=
  match o with
  | some s => !s.isEmpty && pyLower s == "full".toList
  | none => false

/-- Python `o is not None and ('representative' in o.lower() or
'reference' in o.lower())` on the RefSeq category. -/
def refseqRepOrRef (o : Option String) : Bool :=
  match o with
  | some s => seqOccurs "representative".toList (pyLower s) ||
              seqOccurs "reference".toList (pyLower s)
  | none => false

/-- The "very high quality" test of `quality_score`: the conjunction
guarding the base bonus of 100 (assembly level, representation,
scaffold/molecule agreement, gaps, ambiguous bases, gap length, SSU). -/
def veryHighQuality (m : GenomeMetadata) : Bool :=
  assemblyLevelOk m.ncbi_assembly_level &&
  representationFull m.ncbi_genome_representation &&
  (m.scaffold_count == m.ncbi_molecule_count) &&
  (m.ncbi_unspanned_gaps == 0) &&
  (m.ncbi_spanned_gaps <= 10) &&
  (m.ambiguous_bases <= 10000) &&
  (m.total_gap_length <= 10000) &&
  (m.ssu_count >= 1)

/-- The metagenome / single-cell penalties on a truthy NCBI genome
category (the two sequential `q -= ...` branches, as one sum). -/
def categoryPenalty (o : Option String) : ℚ :=
  match o with
  | some s =>
    if !s.isEmpty then
      (if seqOccurs "metagenome".toList (pyLower s) then (-200 : ℚ) else 0) +
      (if seqOccurs "single cell".toList (pyLower s) then (-100 : ℚ) else 0)
    else 0
  | none => 0

/-- The near-complete 16S rRNA bonus: 10 when a truthy `ssu_length`
reaches the domain-dependent minimum (900 for Archaea, 1200 else). -/
def ssuBonus (m : GenomeMetadata) : ℚ :=
  let min_ssu_len : ℤ :=
    if m.gtdb_taxonomy.getD 0 "" == "d__Archaea" then 900 else 1200
  match m.ssu_length with
  | some len => if len ≠ 0 && len ≥ min_ssu_len then 10 else 0
  | none => 0

/-- The additive tally of `quality_score` after the base bonus: the
`q += ... / q -= ...` chain of the source, started at `q`. -/
def scoreTail (m : GenomeMetadata) (q : ℚ) : ℚ :=
  q + m.checkm_completeness - 5 * m.checkm_contamination
    + (if lowerDesignationIn m.ncbi_type_material_designation NCBI_TYPE_SPECIES
       then (200 : ℚ) else 0)
    + (if (lowerDesignationIn m.ncbi_type_material_designation NCBI_PROXYTYPE ||
           refseqRepOrRef m.ncbi_refseq_category)
       then (10 : ℚ) else 0)
    - 5 * (m.contig_count : ℚ) / 100
    - 5 * (m.ambiguous_bases : ℚ) / 100000
    + categoryPenalty m.ncbi_genome_category
    + ssuBonus m

/-- The per-genome body of `quality_score`: base bonus of 100 for a
"very high quality" assembly, 0 otherwise, then the additive tally. -/
def genomeQualityScore (m : GenomeMetadata) : ℚ :=
  scoreTail m (if veryHighQuality m then 100 else 0)

/-- `quality_score(gids, quality_metadata)`: the per-genome scores, with
the metadata dict modelled as a function on the genome ids. -/
def quality_score (gids : List String) (quality_metadata : String → GenomeMetadata) :
    List (String × ℚ) :=
  gids.map (fun gid => (gid, genomeQualityScore (quality_metadata gid)))

/-- Increment one key of a failure-counter dict (`failed_tests[k] += 1`). -/
def incCounter (c : String → ℕ) (key : String) : String → ℕ :=
  fun k => if k = key then c k + 1 else c k

/-- One check of `pass_qc`: the source's repeated
`if <cond>: failed_tests[<key>] += 1; failed = True` pattern, applied to
a `(failed, failed_tests)` state. -/
def qcStep (cond : Prop) [Decidable cond] (key : String)
    (st : Bool × (String → ℕ)) : Bool × (String → ℕ) :=
  if cond then (true, incCounter st.2 key) else st

/-- `pass_qc(...)`: the QC gate; the mutated `failed_tests` dict is
returned alongside the boolean (state-passing form of the Python
in-place increments, with the checks in source order). -/
def pass_qc (qc : GenomeMetadata) (marker_perc min_comp max_cont min_quality
    sh_exception min_perc_markers : ℚ) (max_contigs min_N50 max_ambiguous : ℤ)
    (failed_tests : String → ℕ) : Bool × (String → ℕ) :=
  let st := qcStep (qc.checkm_completeness < min_comp) "comp" (false, failed_tests)
  let st :=
    if qc.checkm_strain_heterogeneity_100 ≥ sh_exception then
      qcStep (qc.checkm_completeness -
          5 * qc.checkm_contamination * (1 - qc.checkm_strain_heterogeneity_100 / 100) <
            min_quality) "qual"
        (qcStep (qc.checkm_contamination > 20) "cont" st)
    else
      qcStep (qc.checkm_completeness - 5 * qc.checkm_contamination < min_quality) "qual"
        (qcStep (qc.checkm_contamination > max_cont) "cont" st)
  let st := qcStep (marker_perc < min_perc_markers) "marker_perc" st
  let st := qcStep (qc.contig_count > max_contigs) "contig_count" st
  let st := qcStep (qc.n50_contigs < min_N50) "N50" st
  let st := qcStep (qc.ambiguous_bases > max_ambiguous) "ambig" st
  (!st.1, st.2)

/-- `ncbi_type_strain_of_species(type_metadata)`: ids whose raw NCBI
type-material designation is in `NCBI_TYPE_SPECIES` (no lowercasing). -/
def ncbi_type_strain_of_species (type_metadata : List (String × GenomeMetadata)) :
    List String :=
  (type_metadata.filter
    (fun p => optIn p.2.ncbi_type_material_designation NCBI_TYPE_SPECIES)).map
    Prod.fst

/-- `gtdb_type_strain_of_species(type_metadata)`: ids whose GTDB type
designation is in `GTDB_TYPE_SPECIES`. -/
def gtdb_type_strain_of_species (type_metadata : List (String × GenomeMetadata)) :
    List String :=
  (type_metadata.filter
    (fun p => optIn p.2.gtdb_type_designation GTDB_TYPE_SPECIES)).map
    Prod.fst

/-- One clustered genome as consumed by `write_clusters`: the member id
with its ANI/AF values to the representative (the `d.gid / d.ani / d.af`
named tuple of the source). -/
structure ClusteredGenome where
  gid : List Char
  ani : ℚ
  af : ℚ

/-- The whitespace characters stripped by Python `str.strip()`. -/
def isPySpace (c : Char) : Bool :=
  c = ' ' || c = '\t' || c = '\n' || c = '\r' || c = '\x0b' || c = '\x0c'

/-- Python `s.strip()`: drop leading and trailing whitespace. -/
def pyStrip (l : List Char) : List Char :=
  ((l.dropWhile isPySpace).reverse.dropWhile isPySpace).reverse

/-- Python `s.split(sep)` for a one-character separator. -/
def pySplit (sep : Char) : List Char → List (List Char)
  | [] => [[]]
  | c :: cs =>
    if c = sep then [] :: pySplit sep cs
    else
      match pySplit sep cs with
      | [] => [[c]]
      | f :: rest => (c :: f) :: rest

/-- Python `sep.join(fields)` for a one-character separator. -/
def joinSep (sep : Char) : List (List Char) → List Char
  | [] => []
  | [f] => f
  | f :: rest => f ++ sep :: joinSep sep rest

/-- The lines yielded by iterating a Python text file: newline-separated
pieces, without a final empty piece when the file ends in a newline. -/
def pyLines (content : List Char) : List (List Char) :=
  let parts := pySplit '\n' content
  if parts.getLast? = some [] then parts.dropLast else parts

/-- Decimal digits of a natural number (fuel-driven helper). -/
def natToCharsAux : Nat → Nat → List Char
  | 0, _ => []
  | fuel + 1, n =>
    if n < 10 then [Nat.digitChar n]
    else natToCharsAux fuel (n / 10) ++ [Nat.digitChar (n % 10)]

/-- Python `'%d' % n` for a natural number. -/
def natToChars (n : Nat) : List Char := natToCharsAux (n + 1) n

/-- Numeric value of a decimal digit character. -/
def digitVal (c : Char) : Nat := c.toNat - '0'.toNat

/-- Python `int(s)` on the unsigned decimal numerals this file produces
(`None` models the `ValueError` on anything else). -/
def parsePyNat (l : List Char) : Option Nat :=
  let t := pyStrip l
  if t ≠ [] ∧ t.all Char.isDigit then
    some (t.foldl (fun a c => 10 * a + digitVal c) 0)
  else none

/-- A two-digit zero-padded decimal rendering of `m % 100`. -/
def twoDigits (m : Nat) : List Char :=
  [Nat.digitChar (m / 10 % 10), Nat.digitChar (m % 10)]

/-- Python `'%.2f' % x`: sign, integer part, point and two decimals.
CPython rounds the underlying binary double at the last digit; this
model floors the exact rational at the second decimal instead. The
cluster reader never consumes these statistic columns, so only their
character set matters for the I/O theorems. -/
def formatTwoDec (q : ℚ) : List Char :=
  let scaled : ℤ := Int.fdiv (q.num * 100) (q.den : ℤ)
  let a := scaled.natAbs
  (if scaled < 0 then ['-'] else []) ++ natToChars (a / 100) ++ '.' :: twoDigits (a % 100)

/-- `np_mean` on exact rationals. -/
def ratMean (l : List ℚ) : ℚ := l.sum / l.length

/-- Python `min` over a nonempty list (0 on the empty list, which the
writer never hits). -/
def ratMin : List ℚ → ℚ
  | [] => 0
  | x :: xs => xs.foldl min x

/-- Python dict assignment `m[k] = v` on an insertion-ordered
association list: overwrite in place, else append. -/
def assocSet {α β : Type} [BEq α] (m : List (α × β)) (k : α) (v : β) : List (α × β) :=
  if m.any (fun p => p.1 == k) then
    m.map (fun p => bif p.1 == k then (k, v) else p)
  else m ++ [(k, v)]

/-- Python `headers.index(x)` (`None` models the `ValueError` when the
column is missing). -/
def listIndexOf (x : List Char) : List (List Char) → Option Nat
  | [] => none
  | y :: ys => if y == x then some 0 else (listIndexOf x ys).map (· + 1)

/-- The header row written by `write_clusters`. -/
def clustersHeader : List Char :=
  ("NCBI species\tType genome\tNo. clustered genomes\tMean ANI\tMin ANI" ++
   "\tMean AF\tMin AF\tClustered genomes").toList

/-- One data row of the cluster file: species (defaulting to
`unclassified`), representative id, member count, the four ANI/AF
statistics (or `N/A` for an empty cluster) and the comma-joined member
ids. -/
def clusterLine (species : List (List Char × List Char)) (gid : List Char)
    (ms : List ClusteredGenome) : List Char :=
  let stats : List (List Char) :=
    if ms.length ≠ 0 then
      [formatTwoDec (ratMean (ms.map ClusteredGenome.ani)),
       formatTwoDec (ratMin (ms.map ClusteredGenome.ani)),
       formatTwoDec (ratMean (ms.map ClusteredGenome.af)),
       formatTwoDec (ratMin (ms.map ClusteredGenome.af))]
    else ["N/A".toList, "N/A".toList, "N/A".toList, "N/A".toList]
  joinSep '\t'
    ([(List.lookup gid species).getD "unclassified".toList, gid,
      natToChars ms.length] ++ stats ++ [joinSep ',' (ms.map ClusteredGenome.gid)])

/-- `write_clusters(clusters, species, out_file)`: the file content,
with representatives sorted by descending cluster size. -/
def write_clusters (clusters : List (List Char × List ClusteredGenome))
    (species : List (List Char × List Char)) : List Char :=
  let sorted := clusters.mergeSort (fun a b => decide (b.2.length ≤ a.2.length))
  clustersHeader ++ '\n' ::
    (sorted.map (fun p => clusterLine species p.1 p.2 ++ ['\n'])).flatten

/-- The result of `read_clusters`: the clusters dict and species dict. -/
def ReadClustersResult : Type :=
  List (List Char × List (List Char)) × List (List Char × List Char)

/-- One iteration of the `read_clusters` row loop. -/
def readClusterRow (type_sp_index type_genome_index num_clustered_index
    clustered_genomes_index : Nat) (acc : ReadClustersResult) (line : List Char) :
    Option ReadClustersResult := do
  let ls := pySplit '\t' (pyStrip line)
  let sp ← ls[type_sp_index]?
  let rid ← ls[type_genome_index]?
  let species := assocSet acc.2 rid sp
  let ns ← ls[num_clustered_index]?
  let num ← parsePyNat ns
  if num > 0 then do
    let ms ← ls[clustered_genomes_index]?
    pure (assocSet acc.1 rid ((pySplit ',' ms).map pyStrip), species)
  else
    pure (assocSet acc.1 rid ([] : List (List Char)), species)

/-- `read_clusters(cluster_file)`: header-indexed parsing of the rows
into the clusters and species dicts (`none` models the exceptions
Python raises on malformed content). -/
def read_clusters (content : List Char) : Option ReadClustersResult := do
  let lines := pyLines content
  let headers := pySplit '\t' (pyStrip (lines.headD []))
  let type_sp_index ← listIndexOf "NCBI species".toList headers
  let type_genome_index ← listIndexOf "Type genome".toList headers
  let num_clustered_index ← listIndexOf "No. clustered genomes".toList headers
  let clustered_genomes_index ← listIndexOf "Clustered genomes".toList headers
  (lines.drop 1).foldlM
    (readClusterRow type_sp_index type_genome_index num_clustered_index
      clustered_genomes_index) ([], [])

/-- The species column written for a representative:
`species.get(gid, 'unclassified')`. -/
def spField (species : List (List Char × List Char)) (gid : List Char) : List Char :=
  (List.lookup gid species).getD "unclassified".toList

/-- A well-formed genome id: nonempty, no whitespace, no comma. -/
def goodIdB (l : List Char) : Bool :=
  !l.isEmpty && l.all (fun c => !isPySpace c && c ≠ ',')

/-- A well-formed species label: nonempty, free of tabs and newlines,
and not starting or ending in whitespace. -/
def goodLabelB (l : List Char) : Bool :=
  !l.isEmpty && l.all (fun c => c ≠ '\t' && c ≠ '\n') &&
  !isPySpace (l.headD 'x') && !isPySpace (l.getLastD 'x')

/-- The pure effect of one parsed row on the two dicts. -/
def applyCluster (species : List (List Char × List Char))
    (a : ReadClustersResult) (p : List Char × List ClusteredGenome) :
    ReadClustersResult :=
  (assocSet a.1 p.1 (p.2.map ClusteredGenome.gid),
   assocSet a.2 p.1 (spField species p.1))

/-- A concrete metadata record used to instantiate theorems with
hypotheses on worked examples (all rational fields are integral so that
record equality is kernel-decidable). -/
def sampleMetadata : GenomeMetadata :=
  { gtdb_taxonomy := ["d__Bacteria", "p__P", "c__C", "o__O", "f__F", "g__G", "s__G s"]
    checkm_completeness := 95
    checkm_contamination := 1
    checkm_strain_heterogeneity_100 := 0
    contig_count := 10
    n50_contigs := 500000
    scaffold_count := 1
    ambiguous_bases := 0
    total_gap_length := 0
    ssu_count := 1
    ssu_length := some 1400
    ncbi_assembly_level := some "Complete Genome"
    ncbi_genome_representation := some "Full"
    ncbi_refseq_category := none
    ncbi_type_material_designation := none
    ncbi_molecule_count := 1
    ncbi_unspanned_gaps := 0
    ncbi_spanned_gaps := 0
    ncbi_genome_category := none
    gtdb_type_designation := some "type strain of species" }

/-! ### Helper lemmas -/

/-- The tally is an additive shift: starting it at `q` just adds `q`. -/
theorem scoreTail_shift (m : GenomeMetadata) (q : ℚ) :
    scoreTail m q = q + scoreTail m 0 := by
  unfold scoreTail
  ring

/-- A string whose lowercase form is a nonempty character list is itself
nonempty. -/
theorem isEmpty_eq_false_of_pyLower {s : String} {l : List Char}
    (h : pyLower s = l) (hl : l ≠ []) : s.isEmpty = false := by
  rcases hs : s.isEmpty with _ | _
  · rfl
  · exfalso
    apply hl
    rw [← h]
    have hse : s = "" := (String.isEmpty_iff _).mp hs
    subst hse
    rfl

/-- Characterisation of the assembly-level test. -/
theorem assemblyLevelOk_iff (o : Option String) :
    assemblyLevelOk o = true ↔
      ∃ s, o = some s ∧ (pyLower s = "complete genome".toList ∨
        pyLower s = "chromosome".toList) := by
  cases o with
  | none => simp [assemblyLevelOk]
  | some s =>
    simp only [assemblyLevelOk, Bool.and_eq_true, Bool.or_eq_true, beq_iff_eq,
      Bool.not_eq_true', Option.some.injEq]
    constructor
    · rintro ⟨_, h⟩
      exact ⟨s, rfl, h⟩
    · rintro ⟨s', hs', h⟩
      subst hs'
      refine ⟨?_, h⟩
      rcases h with h | h
      · exact isEmpty_eq_false_of_pyLower h (by decide)
      · exact isEmpty_eq_false_of_pyLower h (by decide)

/-- Characterisation of the genome-representation test. -/
theorem representationFull_iff (o : Option String) :
    representationFull o = true ↔ ∃ s, o = some s ∧ pyLower s = "full".toList := by
  cases o with
  | none => simp [representationFull]
  | some s =>
    simp only [representationFull, Bool.and_eq_true, beq_iff_eq,
      Bool.not_eq_true', Option.some.injEq]
    constructor
    · rintro ⟨_, h⟩
      exact ⟨s, rfl, h⟩
    · rintro ⟨s', hs', h⟩
      subst hs'
      exact ⟨isEmpty_eq_false_of_pyLower h (by decide), h⟩

/-! ### Claim theorems -/

/-- C7: `symmetric_ani` is commutative: swapping the two genome ids
changes neither the ANI nor the AF component of the result. -/
theorem symmetric_ani_comm (m : AniAfMatrix) (a b : String) :
    symmetric_ani m a b = symmetric_ani m b a := by
  unfold symmetric_ani
  cases List.lookup a m <;> cases List.lookup b m <;> simp
  rename_i rowA rowB
  cases List.lookup b rowA <;> cases List.lookup a rowB <;> simp [max_comm]

/-- C3: `symmetric_ani` returns `(0, 0)` when either directional
measurement is absent, and otherwise the independently maximised ANI and
AF of the two directions. -/
theorem symmetric_ani_spec (m : AniAfMatrix) (a b : String) :
    symmetric_ani m a b =
      (match aniAfLookup m a b, aniAfLookup m b a with
       | some v, some w => (max v.1 w.1, max v.2 w.2)
       | _, _ => ((0 : ℚ), (0 : ℚ))) := by
  rcases hA : List.lookup a m with _ | rowA <;> rcases hB : List.lookup b m with _ | rowB
  · simp [symmetric_ani, aniAfLookup, hA, hB]
  · simp [symmetric_ani, aniAfLookup, hA, hB]
  · rcases hAB : List.lookup b rowA with _ | v <;>
      simp [symmetric_ani, aniAfLookup, hA, hB, hAB]
  · rcases hAB : List.lookup b rowA with _ | v <;>
      rcases hBA : List.lookup a rowB with _ | w <;>
      simp [symmetric_ani, aniAfLookup, hA, hB, hAB, hBA, max_comm]

/-- C4: the quality score starts from a base of exactly 100 when all
eight assembly conditions hold and from 0 otherwise; the base test is
exactly the stated eight-way conjunction (with case-insensitive string
comparisons). -/
theorem quality_score_base (m : GenomeMetadata) :
    (veryHighQuality m = true ↔
      ((∃ s, m.ncbi_assembly_level = some s ∧
          (pyLower s = "complete genome".toList ∨ pyLower s = "chromosome".toList)) ∧
       (∃ s, m.ncbi_genome_representation = some s ∧ pyLower s = "full".toList) ∧
       m.scaffold_count = m.ncbi_molecule_count ∧
       m.ncbi_unspanned_gaps = 0 ∧
       m.ncbi_spanned_gaps ≤ 10 ∧
       m.ambiguous_bases ≤ 10000 ∧
       m.total_gap_length ≤ 10000 ∧
       1 ≤ m.ssu_count)) ∧
    genomeQualityScore m =
      (if veryHighQuality m then (100 : ℚ) else 0) + scoreTail m 0 := by
  constructor
  · rw [veryHighQuality]
    simp only [Bool.and_eq_true, assemblyLevelOk_iff, representationFull_iff,
      beq_iff_eq, decide_eq_true_eq]
    aesop
  · rw [genomeQualityScore]
    exact scoreTail_shift m _

/-- Membership in the NCBI classifier result, characterised. -/
theorem mem_ncbi_type_strain (md : List (String × GenomeMetadata)) (gid : String) :
    gid ∈ ncbi_type_strain_of_species md ↔
      ∃ r, (gid, r) ∈ md ∧
        optIn r.ncbi_type_material_designation NCBI_TYPE_SPECIES = true := by
  simp only [ncbi_type_strain_of_species, List.mem_map, List.mem_filter]
  constructor
  · rintro ⟨⟨g, r⟩, ⟨hmem, hpred⟩, rfl⟩
    exact ⟨r, hmem, hpred⟩
  · rintro ⟨r, hmem, hpred⟩
    exact ⟨(gid, r), ⟨hmem, hpred⟩, rfl⟩

/-- Membership in the GTDB classifier result, characterised. -/
theorem mem_gtdb_type_strain (md : List (String × GenomeMetadata)) (gid : String) :
    gid ∈ gtdb_type_strain_of_species md ↔
      ∃ r, (gid, r) ∈ md ∧
        optIn r.gtdb_type_designation GTDB_TYPE_SPECIES = true := by
  simp only [gtdb_type_strain_of_species, List.mem_map, List.mem_filter]
  constructor
  · rintro ⟨⟨g, r⟩, ⟨hmem, hpred⟩, rfl⟩
    exact ⟨r, hmem, hpred⟩
  · rintro ⟨r, hmem, hpred⟩
    exact ⟨(gid, r), ⟨hmem, hpred⟩, rfl⟩

/-- In an association list with duplicate-free keys, a key determines
its value. -/
theorem assoc_value_eq_of_nodup {α β : Type} {l : List (α × β)} {k : α} {a b : β}
    (h : (l.map Prod.fst).Nodup) (h1 : (k, a) ∈ l) (h2 : (k, b) ∈ l) : a = b := by
  induction l with
  | nil => cases h1
  | cons p t ih =>
    rw [List.map_cons, List.nodup_cons] at h
    rcases List.mem_cons.mp h1 with he1 | ht1 <;>
      rcases List.mem_cons.mp h2 with he2 | ht2
    · rw [← he1] at he2
      injection he2 with h1 h2
      exact h2.symm
    · exfalso
      apply h.1
      rw [← he1]
      exact List.mem_map.mpr ⟨(k, b), ht2, rfl⟩
    · exfalso
      apply h.1
      rw [← he2]
      exact List.mem_map.mpr ⟨(k, a), ht1, rfl⟩
    · exact ih h.2 ht1 ht2

/-- Updating the contamination field changes neither the base test nor
the SSU bonus. -/
theorem veryHighQuality_update_cont (m : GenomeMetadata) (c : ℚ) :
    veryHighQuality { m with checkm_contamination := c } = veryHighQuality m := rfl

/-- Updating the completeness field does not change the base test. -/
theorem veryHighQuality_update_comp (m : GenomeMetadata) (c : ℚ) :
    veryHighQuality { m with checkm_completeness := c } = veryHighQuality m := rfl

/-- The SSU bonus ignores the contamination field. -/
theorem ssuBonus_update_cont (m : GenomeMetadata) (c : ℚ) :
    ssuBonus { m with checkm_contamination := c } = ssuBonus m := rfl

/-- The SSU bonus ignores the completeness field. -/
theorem ssuBonus_update_comp (m : GenomeMetadata) (c : ℚ) :
    ssuBonus { m with checkm_completeness := c } = ssuBonus m := rfl

/-- C8: holding every other field fixed, the quality score is strictly
decreasing in contamination and strictly increasing in completeness. -/
theorem quality_score_strict_mono (m : GenomeMetadata) (c2 p2 : ℚ) :
    (m.checkm_contamination < c2 →
      genomeQualityScore { m with checkm_contamination := c2 } <
        genomeQualityScore m) ∧
    (m.checkm_completeness < p2 →
      genomeQualityScore m <
        genomeQualityScore { m with checkm_completeness := p2 }) := by
  constructor <;> intro h <;>
    simp only [genomeQualityScore, scoreTail, veryHighQuality_update_cont,
      veryHighQuality_update_comp, ssuBonus_update_cont, ssuBonus_update_comp] <;>
    linarith

/-- Witness for C8 at a concrete record. -/
theorem quality_score_strict_mono_witness :
    genomeQualityScore { sampleMetadata with checkm_contamination := 3 } <
      genomeQualityScore sampleMetadata ∧
    genomeQualityScore sampleMetadata <
      genomeQualityScore { sampleMetadata with checkm_completeness := 99 } := by
  constructor
  · exact (quality_score_strict_mono sampleMetadata 3 99).1 (by norm_num [sampleMetadata])
  · exact (quality_score_strict_mono sampleMetadata 3 99).2 (by norm_num [sampleMetadata])

/-- The base test ignores the NCBI type-material designation. -/
theorem veryHighQuality_update_des (m : GenomeMetadata) (o : Option String) :
    veryHighQuality { m with ncbi_type_material_designation := o } =
      veryHighQuality m := rfl

/-- The SSU bonus ignores the NCBI type-material designation. -/
theorem ssuBonus_update_des (m : GenomeMetadata) (o : Option String) :
    ssuBonus { m with ncbi_type_material_designation := o } = ssuBonus m := rfl

/-- C9: the NCBI type test is case-insensitive in `quality_score`
(lowercased before the membership test, so a designation differing only
in case still earns the 200-point bonus) but case-sensitive in
`ncbi_type_strain_of_species` (raw comparison, so the genome is
excluded). -/
theorem type_material_case_mismatch (md : List (String × GenomeMetadata))
    (gid : String) (r : GenomeMetadata)
    (hnd : (md.map Prod.fst).Nodup) (hmem : (gid, r) ∈ md)
    (hdes : r.ncbi_type_material_designation = some "Assembly from type material") :
    gid ∉ ncbi_type_strain_of_species md ∧
    genomeQualityScore r =
      genomeQualityScore { r with ncbi_type_material_designation := none } + 200 := by
  constructor
  · intro hg
    obtain ⟨r', hmem', hpred⟩ := (mem_ncbi_type_strain md gid).mp hg
    obtain rfl : r = r' := assoc_value_eq_of_nodup hnd hmem hmem'
    rw [hdes] at hpred
    exact absurd hpred (by decide)
  · have h1 : lowerIn "Assembly from type material" NCBI_TYPE_SPECIES = true := by decide
    have h2 : lowerIn "Assembly from type material" NCBI_PROXYTYPE = false := by decide
    simp only [genomeQualityScore, scoreTail, lowerDesignationIn, hdes, h1, h2,
      veryHighQuality_update_des, ssuBonus_update_des, Bool.false_or,
      if_true, if_false]
    norm_num
    ring

/-- Witness for C9 at a concrete one-record metadata table. -/
theorem type_material_case_mismatch_witness :
    "G1" ∉ ncbi_type_strain_of_species
        [("G1", { sampleMetadata with
                    ncbi_type_material_designation := some "Assembly from type material" })] ∧
    genomeQualityScore
        { sampleMetadata with
            ncbi_type_material_designation := some "Assembly from type material" } =
      genomeQualityScore
        { { sampleMetadata with
              ncbi_type_material_designation := some "Assembly from type material" } with
            ncbi_type_material_designation := none } + 200 :=
  type_material_case_mismatch _ "G1"
    { sampleMetadata with
        ncbi_type_material_designation := some "Assembly from type material" }
    (by simp) (by simp) rfl

/-- C6: a genome whose NCBI designation is `"assembly from type
material"` is selected by the NCBI classifier, and is selected by the
GTDB classifier exactly when its separate GTDB designation is a GTDB
type-species label. -/
theorem type_classifiers_vocabulary (md : List (String × GenomeMetadata))
    (gid : String) (r : GenomeMetadata)
    (hnd : (md.map Prod.fst).Nodup) (hmem : (gid, r) ∈ md)
    (hdes : r.ncbi_type_material_designation = some "assembly from type material") :
    gid ∈ ncbi_type_strain_of_species md ∧
    (gid ∈ gtdb_type_strain_of_species md ↔
      optIn r.gtdb_type_designation GTDB_TYPE_SPECIES = true) := by
  constructor
  · exact (mem_ncbi_type_strain md gid).mpr ⟨r, hmem, by rw [hdes]; decide⟩
  · constructor
    · intro hg
      obtain ⟨r', hmem', hpred⟩ := (mem_gtdb_type_strain md gid).mp hg
      obtain rfl : r = r' := assoc_value_eq_of_nodup hnd hmem hmem'
      exact hpred
    · intro hpred
      exact (mem_gtdb_type_strain md gid).mpr ⟨r, hmem, hpred⟩

/-- Witness for C6: with a GTDB type-species designation both
classifiers select the genome; the GTDB side of the conjunction holds
through the stated equivalence. -/
theorem type_classifiers_vocabulary_witness :
    "G1" ∈ ncbi_type_strain_of_species
        [("G1", { sampleMetadata with
                    ncbi_type_material_designation := some "assembly from type material" })] ∧
    ("G1" ∈ gtdb_type_strain_of_species
        [("G1", { sampleMetadata with
                    ncbi_type_material_designation := some "assembly from type material" })] ↔
      optIn (some "type strain of species") GTDB_TYPE_SPECIES = true) :=
  type_classifiers_vocabulary _ "G1"
    { sampleMetadata with
        ncbi_type_material_designation := some "assembly from type material" }
    (by simp) (by simp) rfl

/-- Applying an increment, pointwise. -/
theorem incCounter_apply (c : String → ℕ) (key k : String) :
    incCounter c key k = c k + (if k = key then 1 else 0) := by
  unfold incCounter
  split_ifs <;> simp

/-- Counter component of one QC check, pointwise. -/
theorem qcStep_snd (cond : Prop) [Decidable cond] (key : String)
    (st : Bool × (String → ℕ)) (k : String) :
    (qcStep cond key st).2 k = st.2 k + (if k = key ∧ cond then 1 else 0) := by
  unfold qcStep
  split_ifs with h1 h2 <;> simp_all [incCounter_apply]

/-- Failed-flag component of one QC check. -/
theorem qcStep_fst (cond : Prop) [Decidable cond] (key : String)
    (st : Bool × (String → ℕ)) :
    (qcStep cond key st).1 = (st.1 || decide cond) := by
  unfold qcStep
  split_ifs with h <;> simp [h]

/-- The counters returned by `pass_qc`, pointwise: the input counter
plus an indicator per category, with the contamination and quality
conditions selected by the strain-heterogeneity branch. -/
theorem pass_qc_snd (qc : GenomeMetadata) (marker_perc min_comp max_cont min_quality
    sh_exception min_perc_markers : ℚ) (max_contigs min_N50 max_ambiguous : ℤ)
    (ft : String → ℕ) (k : String) :
    (pass_qc qc marker_perc min_comp max_cont min_quality sh_exception
        min_perc_markers max_contigs min_N50 max_ambiguous ft).2 k =
      ft k +
        (if k = "comp" ∧ qc.checkm_completeness < min_comp then 1 else 0) +
        (if k = "cont" ∧
            (if qc.checkm_strain_heterogeneity_100 ≥ sh_exception then
              qc.checkm_contamination > 20
            else qc.checkm_contamination > max_cont) then 1 else 0) +
        (if k = "qual" ∧
            (if qc.checkm_strain_heterogeneity_100 ≥ sh_exception then
              qc.checkm_completeness -
                5 * qc.checkm_contamination *
                  (1 - qc.checkm_strain_heterogeneity_100 / 100) < min_quality
            else qc.checkm_completeness - 5 * qc.checkm_contamination < min_quality)
          then 1 else 0) +
        (if k = "marker_perc" ∧ marker_perc < min_perc_markers then 1 else 0) +
        (if k = "contig_count" ∧ qc.contig_count > max_contigs then 1 else 0) +
        (if k = "N50" ∧ qc.n50_contigs < min_N50 then 1 else 0) +
        (if k = "ambig" ∧ qc.ambiguous_bases > max_ambiguous then 1 else 0) := by
  unfold pass_qc
  by_cases hsh : qc.checkm_strain_heterogeneity_100 ≥ sh_exception <;>
    simp only [hsh, if_true, if_false, qcStep_snd, ite_true, ite_false]

/-- The boolean returned by `pass_qc`: true exactly when none of the
seven failure conditions holds. -/
theorem pass_qc_fst (qc : GenomeMetadata) (marker_perc min_comp max_cont min_quality
    sh_exception min_perc_markers : ℚ) (max_contigs min_N50 max_ambiguous : ℤ)
    (ft : String → ℕ) :
    ((pass_qc qc marker_perc min_comp max_cont min_quality sh_exception
        min_perc_markers max_contigs min_N50 max_ambiguous ft).1 = true ↔
      ¬(qc.checkm_completeness < min_comp ∨
        (if qc.checkm_strain_heterogeneity_100 ≥ sh_exception then
          qc.checkm_contamination > 20
        else qc.checkm_contamination > max_cont) ∨
        (if qc.checkm_strain_heterogeneity_100 ≥ sh_exception then
          qc.checkm_completeness -
            5 * qc.checkm_contamination *
              (1 - qc.checkm_strain_heterogeneity_100 / 100) < min_quality
        else qc.checkm_completeness - 5 * qc.checkm_contamination < min_quality) ∨
        marker_perc < min_perc_markers ∨
        qc.contig_count > max_contigs ∨
        qc.n50_contigs < min_N50 ∨
        qc.ambiguous_bases > max_ambiguous)) := by
  unfold pass_qc
  by_cases hsh : qc.checkm_strain_heterogeneity_100 ≥ sh_exception <;>
    simp only [hsh, if_true, if_false, qcStep_fst, ite_true, ite_false,
      Bool.false_or, Bool.or_eq_true, decide_eq_true_eq, Bool.not_eq_true',
      Bool.not_or, Bool.not_eq_true, Bool.and_eq_true,
      decide_eq_false_iff_not] <;>
    tauto

/-- C1: `pass_qc` selects the contamination/quality conditions by
comparing strain heterogeneity to `sh_exception` with `>=`: at or above
the threshold the lenient conditions apply (`cont` fires iff
contamination > 20, `qual` iff the heterogeneity-discounted quality is
below `min_quality`); strictly below it the strict conditions apply
(`cont` iff contamination > `max_cont`, `qual` iff
completeness - 5*contamination is below `min_quality`). -/
theorem pass_qc_sh_branch (qc : GenomeMetadata) (marker_perc min_comp max_cont
    min_quality sh_exception min_perc_markers : ℚ)
    (max_contigs min_N50 max_ambiguous : ℤ) (failed_tests : String → ℕ) :
    (qc.checkm_strain_heterogeneity_100 ≥ sh_exception →
      (((pass_qc qc marker_perc min_comp max_cont min_quality sh_exception
            min_perc_markers max_contigs min_N50 max_ambiguous failed_tests).2 "cont" =
          failed_tests "cont" + 1 ↔ qc.checkm_contamination > 20) ∧
       ((pass_qc qc marker_perc min_comp max_cont min_quality sh_exception
            min_perc_markers max_contigs min_N50 max_ambiguous failed_tests).2 "qual" =
          failed_tests "qual" + 1 ↔
          qc.checkm_completeness - 5 * qc.checkm_contamination *
            (1 - qc.checkm_strain_heterogeneity_100 / 100) < min_quality))) ∧
    (qc.checkm_strain_heterogeneity_100 < sh_exception →
      (((pass_qc qc marker_perc min_comp max_cont min_quality sh_exception
            min_perc_markers max_contigs min_N50 max_ambiguous failed_tests).2 "cont" =
          failed_tests "cont" + 1 ↔ qc.checkm_contamination > max_cont) ∧
       ((pass_qc qc marker_perc min_comp max_cont min_quality sh_exception
            min_perc_markers max_contigs min_N50 max_ambiguous failed_tests).2 "qual" =
          failed_tests "qual" + 1 ↔
          qc.checkm_completeness - 5 * qc.checkm_contamination < min_quality))) := by
  constructor
  · intro hsh
    constructor <;>
      (rw [pass_qc_snd]
       simp only [String.reduceEq, false_and, if_false, true_and, and_true,
         add_zero, zero_add]
       simp only [ge_iff_le] at hsh ⊢
       simp only [hsh, if_true]
       split_ifs <;> simp_all <;> omega)
  · intro hsh
    have hsh' : ¬ sh_exception ≤ qc.checkm_strain_heterogeneity_100 := not_le.mpr hsh
    constructor <;>
      (rw [pass_qc_snd]
       simp only [String.reduceEq, false_and, if_false, true_and, and_true,
         add_zero, zero_add]
       simp only [ge_iff_le, hsh', if_false]
       split_ifs <;> simp_all <;> omega)

/-- Witness for C1: the strict branch on a concrete record below the
heterogeneity threshold; `cont` does not fire since 1 <= 5. -/
theorem pass_qc_sh_branch_witness :
    (pass_qc sampleMetadata 100 90 5 50 25 90 1000 5000 100000 (fun _ => 0)).2 "cont" =
        (fun _ => (0 : ℕ)) "cont" + 1 ↔ sampleMetadata.checkm_contamination > 5 :=
  ((pass_qc_sh_branch sampleMetadata 100 90 5 50 25 90 1000 5000 100000
    (fun _ => 0)).2 (by norm_num [sampleMetadata])).1

/-- C2: `pass_qc` returns true iff no category fired (no counter
changed), and the five branch-independent categories fire exactly on
their thresholds: `comp` iff completeness < `min_comp` (regardless of
all other fields), `marker_perc` iff the marker percentage is below
`min_perc_markers`, `contig_count` iff there are more than
`max_contigs` contigs, `N50` iff the N50 is below `min_N50`, and
`ambig` iff ambiguous bases exceed `max_ambiguous`. -/
theorem pass_qc_result (qc : GenomeMetadata) (marker_perc min_comp max_cont
    min_quality sh_exception min_perc_markers : ℚ)
    (max_contigs min_N50 max_ambiguous : ℤ) (failed_tests : String → ℕ) :
    ((pass_qc qc marker_perc min_comp max_cont min_quality sh_exception
        min_perc_markers max_contigs min_N50 max_ambiguous failed_tests).1 = true ↔
      ∀ k, (pass_qc qc marker_perc min_comp max_cont min_quality sh_exception
        min_perc_markers max_contigs min_N50 max_ambiguous failed_tests).2 k =
          failed_tests k) ∧
    ((pass_qc qc marker_perc min_comp max_cont min_quality sh_exception
        min_perc_markers max_contigs min_N50 max_ambiguous failed_tests).2 "comp" =
      failed_tests "comp" + 1 ↔ qc.checkm_completeness < min_comp) ∧
    ((pass_qc qc marker_perc min_comp max_cont min_quality sh_exception
        min_perc_markers max_contigs min_N50 max_ambiguous failed_tests).2 "marker_perc" =
      failed_tests "marker_perc" + 1 ↔ marker_perc < min_perc_markers) ∧
    ((pass_qc qc marker_perc min_comp max_cont min_quality sh_exception
        min_perc_markers max_contigs min_N50 max_ambiguous failed_tests).2 "contig_count" =
      failed_tests "contig_count" + 1 ↔ qc.contig_count > max_contigs) ∧
    ((pass_qc qc marker_perc min_comp max_cont min_quality sh_exception
        min_perc_markers max_contigs min_N50 max_ambiguous failed_tests).2 "N50" =
      failed_tests "N50" + 1 ↔ qc.n50_contigs < min_N50) ∧
    ((pass_qc qc marker_perc min_comp max_cont min_quality sh_exception
        min_perc_markers max_contigs min_N50 max_ambiguous failed_tests).2 "ambig" =
      failed_tests "ambig" + 1 ↔ qc.ambiguous_bases > max_ambiguous) := by
  refine ⟨?_, ?_, ?_, ?_, ?_, ?_⟩
  · rw [pass_qc_fst]
    constructor
    · intro h k
      rw [pass_qc_snd]
      simp only [not_or] at h
      obtain ⟨h1, h2, h3, h4, h5, h6, h7⟩ := h
      simp [h1, h2, h3, h4, h5, h6, h7]
    · intro h
      have key : ∀ s : String, (pass_qc qc marker_perc min_comp max_cont min_quality
          sh_exception min_perc_markers max_contigs min_N50 max_ambiguous
          failed_tests).2 s = failed_tests s := h
      have h1 := key "comp"
      have h2 := key "cont"
      have h3 := key "qual"
      have h4 := key "marker_perc"
      have h5 := key "contig_count"
      have h6 := key "N50"
      have h7 := key "ambig"
      rw [pass_qc_snd] at h1 h2 h3 h4 h5 h6 h7
      simp only [String.reduceEq, false_and, if_false, true_and, and_true,
        add_zero, zero_add] at h1 h2 h3 h4 h5 h6 h7
      intro hcon
      rcases hcon with hc | hc | hc | hc | hc | hc | hc <;>
        simp_all <;> omega
  all_goals
    rw [pass_qc_snd]
    simp only [String.reduceEq, false_and, if_false, true_and, add_zero, zero_add]
    split_ifs <;> simp_all <;> omega

/-- Witness for C2: instantiation of the pass-iff-unchanged equivalence
at a concrete record and thresholds. -/
theorem pass_qc_result_witness :
    (pass_qc sampleMetadata 100 90 5 50 25 90 1000 5000 100000 (fun _ => 0)).1 = true ↔
      ∀ k, (pass_qc sampleMetadata 100 90 5 50 25 90 1000 5000 100000
        (fun _ => 0)).2 k = (fun _ => (0 : ℕ)) k :=
  (pass_qc_result sampleMetadata 100 90 5 50 25 90 1000 5000 100000 (fun _ => 0)).1

/-- C10: one call of `pass_qc` only ever increments counters, by 0 or 1
each, touches no key outside the seven categories, and leaves the
counter map unchanged whenever it returns true. -/
theorem pass_qc_frame (qc : GenomeMetadata) (marker_perc min_comp max_cont
    min_quality sh_exception min_perc_markers : ℚ)
    (max_contigs min_N50 max_ambiguous : ℤ) (failed_tests : String → ℕ) :
    (∀ k, (pass_qc qc marker_perc min_comp max_cont min_quality sh_exception
        min_perc_markers max_contigs min_N50 max_ambiguous failed_tests).2 k =
          failed_tests k ∨
      (pass_qc qc marker_perc min_comp max_cont min_quality sh_exception
        min_perc_markers max_contigs min_N50 max_ambiguous failed_tests).2 k =
          failed_tests k + 1) ∧
    (∀ k, k ∉ (["comp", "cont", "qual", "marker_perc", "contig_count", "N50",
        "ambig"] : List String) →
      (pass_qc qc marker_perc min_comp max_cont min_quality sh_exception
        min_perc_markers max_contigs min_N50 max_ambiguous failed_tests).2 k =
          failed_tests k) ∧
    ((pass_qc qc marker_perc min_comp max_cont min_quality sh_exception
        min_perc_markers max_contigs min_N50 max_ambiguous failed_tests).1 = true →
      (pass_qc qc marker_perc min_comp max_cont min_quality sh_exception
        min_perc_markers max_contigs min_N50 max_ambiguous failed_tests).2 =
        failed_tests) := by
  refine ⟨?_, ?_, ?_⟩
  · intro k
    rw [pass_qc_snd]
    by_cases e1 : k = "comp"
    · subst e1; simp only [String.reduceEq, false_and, if_false, true_and,
        add_zero, zero_add]; split_ifs <;> omega
    by_cases e2 : k = "cont"
    · subst e2; simp only [String.reduceEq, false_and, if_false, true_and,
        add_zero, zero_add]; split_ifs <;> omega
    by_cases e3 : k = "qual"
    · subst e3; simp only [String.reduceEq, false_and, if_false, true_and,
        add_zero, zero_add]; split_ifs <;> omega
    by_cases e4 : k = "marker_perc"
    · subst e4; simp only [String.reduceEq, false_and, if_false, true_and,
        add_zero, zero_add]; split_ifs <;> omega
    by_cases e5 : k = "contig_count"
    · subst e5; simp only [String.reduceEq, false_and, if_false, true_and,
        add_zero, zero_add]; split_ifs <;> omega
    by_cases e6 : k = "N50"
    · subst e6; simp only [String.reduceEq, false_and, if_false, true_and,
        add_zero, zero_add]; split_ifs <;> omega
    by_cases e7 : k = "ambig"
    · subst e7; simp only [String.reduceEq, false_and, if_false, true_and,
        add_zero, zero_add]; split_ifs <;> omega
    · simp [e1, e2, e3, e4, e5, e6, e7]
  · intro k hk
    simp only [List.mem_cons, List.not_mem_nil, or_false, not_or] at hk
    obtain ⟨e1, e2, e3, e4, e5, e6, e7⟩ := hk
    rw [pass_qc_snd]
    simp [e1, e2, e3, e4, e5, e6, e7]
  · intro h
    rw [pass_qc_fst] at h
    simp only [not_or] at h
    obtain ⟨h1, h2, h3, h4, h5, h6, h7⟩ := h
    funext k
    rw [pass_qc_snd]
    simp [h1, h2, h3, h4, h5, h6, h7]

/-- Witness for C10: on a key outside the seven categories the counter
is untouched. -/
theorem pass_qc_frame_witness :
    (pass_qc sampleMetadata 100 90 5 50 25 90 1000 5000 100000 (fun _ => 0)).2 "other" =
      (fun _ => (0 : ℕ)) "other" :=
  (pass_qc_frame sampleMetadata 100 90 5 50 25 90 1000 5000 100000
    (fun _ => 0)).2.1 "other" (by decide)

/-! ### Cluster report I/O lemmas -/

theorem pySplit_ne_nil (sep : Char) (l : List Char) : pySplit sep l ≠ [] := by
  induction l with
  | nil => simp [pySplit]
  | cons c cs ih =>
    unfold pySplit
    split_ifs
    · simp
    · cases h : pySplit sep cs with
      | nil => simp
      | cons f rest => simp

theorem pySplit_no_sep {sep : Char} {l : List Char} (h : sep ∉ l) :
    pySplit sep l = [l] := by
  induction l with
  | nil => rfl
  | cons c cs ih =>
    unfold pySplit
    have hc : ¬ c = sep := fun e => h (e ▸ List.mem_cons_self c cs)
    rw [if_neg hc, ih (fun hm => h (List.mem_cons_of_mem c hm))]

theorem pySplit_append_sep {sep : Char} {f r : List Char} (h : sep ∉ f) :
    pySplit sep (f ++ sep :: r) = f :: pySplit sep r := by
  induction f with
  | nil => simp [pySplit]
  | cons c cs ih =>
    have hc : ¬ c = sep := fun e => h (e ▸ List.mem_cons_self c cs)
    have ih' := ih (fun hm => h (List.mem_cons_of_mem c hm))
    simp only [List.cons_append]
    simp only [pySplit]
    rw [if_neg hc, ih']

theorem pySplit_join {sep : Char} {fields : List (List Char)}
    (h : ∀ f ∈ fields, sep ∉ f) (hne : fields ≠ []) :
    pySplit sep (joinSep sep fields) = fields := by
  induction fields with
  | nil => exact absurd rfl hne
  | cons f rest ih =>
    cases rest with
    | nil =>
      show pySplit sep (joinSep sep [f]) = [f]
      rw [show joinSep sep [f] = f from rfl]
      exact pySplit_no_sep (h f (List.mem_cons_self f []))
    | cons g gs =>
      show pySplit sep (f ++ sep :: joinSep sep (g :: gs)) = f :: g :: gs
      rw [pySplit_append_sep (h f (List.mem_cons_self f _)),
        ih (fun x hx => h x (List.mem_cons_of_mem f hx)) (by simp)]

theorem dropWhile_eq_self_of_head {p : Char → Bool} {l : List Char}
    (h : ∀ c, l.head? = some c → p c = false) : l.dropWhile p = l := by
  cases l with
  | nil => rfl
  | cons c cs => simp [List.dropWhile, h c rfl]

theorem pyStrip_eq_self {l : List Char}
    (h1 : ∀ c, l.head? = some c → isPySpace c = false)
    (h2 : ∀ c, l.reverse.head? = some c → isPySpace c = false) :
    pyStrip l = l := by
  unfold pyStrip
  rw [dropWhile_eq_self_of_head h1, dropWhile_eq_self_of_head h2,
    List.reverse_reverse]

theorem pyStrip_append_tab {l : List Char}
    (h1 : ∀ c, l.head? = some c → isPySpace c = false)
    (h2 : ∀ c, l.reverse.head? = some c → isPySpace c = false)
    (hne : l ≠ []) :
    pyStrip (l ++ ['\t']) = l := by
  unfold pyStrip
  have e1 : (l ++ ['\t']).dropWhile isPySpace = l ++ ['\t'] := by
    apply dropWhile_eq_self_of_head
    intro c hc
    cases l with
    | nil => exact absurd rfl hne
    | cons a as =>
      simp only [List.cons_append, List.head?_cons, Option.some.injEq] at hc
      exact hc ▸ h1 a rfl
  rw [e1, List.reverse_append]
  show (('\t' :: l.reverse).dropWhile isPySpace).reverse = l
  rw [List.dropWhile_cons]
  simp only [show isPySpace '\t' = true from rfl, if_true]
  rw [dropWhile_eq_self_of_head h2, List.reverse_reverse]

theorem digitVal_digitChar {n : Nat} (h : n < 10) :
    digitVal (Nat.digitChar n) = n := by
  interval_cases n <;> decide

theorem digitChar_isDigit {n : Nat} (h : n < 10) :
    (Nat.digitChar n).isDigit = true := by
  interval_cases n <;> decide

theorem natToCharsAux_spec :
    ∀ n fuel, n < fuel →
      natToCharsAux fuel n ≠ [] ∧
      (∀ c ∈ natToCharsAux fuel n, c.isDigit = true) ∧
      (natToCharsAux fuel n).foldl (fun a c => 10 * a + digitVal c) 0 = n := by
  intro n
  induction n using Nat.strong_induction_on with
  | _ n ih =>
    intro fuel hf
    cases fuel with
    | zero => omega
    | succ f =>
      by_cases h10 : n < 10
      · refine ⟨by simp [natToCharsAux, h10], ?_, ?_⟩
        · intro c hc
          simp only [natToCharsAux, if_pos h10, List.mem_singleton] at hc
          exact hc ▸ digitChar_isDigit h10
        · simp only [natToCharsAux, if_pos h10, List.foldl_cons, List.foldl_nil]
          rw [digitVal_digitChar h10]
          omega
      · have hdivlt : n / 10 < n := Nat.div_lt_self (by omega) (by norm_num)
        have hdivf : n / 10 < f := by omega
        obtain ⟨hne, hdig, hval⟩ := ih (n / 10) hdivlt f hdivf
        simp only [natToCharsAux, if_neg h10]
        refine ⟨by simp, ?_, ?_⟩
        · intro c hc
          rcases List.mem_append.mp hc with hm | hm
          · exact hdig c hm
          · rw [List.mem_singleton] at hm
            exact hm ▸ digitChar_isDigit (Nat.mod_lt _ (by norm_num))
        · rw [List.foldl_append, hval]
          simp only [List.foldl_cons, List.foldl_nil]
          rw [digitVal_digitChar (Nat.mod_lt _ (by norm_num))]
          omega

theorem natToChars_ne_nil (n : Nat) : natToChars n ≠ [] :=
  (natToCharsAux_spec n (n + 1) (Nat.lt_succ_self n)).1

theorem natToChars_all_digits (n : Nat) :
    ∀ c ∈ natToChars n, c.isDigit = true :=
  (natToCharsAux_spec n (n + 1) (Nat.lt_succ_self n)).2.1

theorem isPySpace_eq_false_of_isDigit {c : Char} (h : c.isDigit = true) :
    isPySpace c = false := by
  by_contra hc
  rw [Bool.not_eq_false] at hc
  unfold isPySpace at hc
  simp only [Bool.or_eq_true, decide_eq_true_eq] at hc
  rcases hc with ((((rfl | rfl) | rfl) | rfl) | rfl) | rfl <;> exact absurd h (by decide)

theorem not_mem_of_all_digits {l : List Char} {sep : Char}
    (hall : ∀ c ∈ l, c.isDigit = true) (hsep : sep.isDigit = false) :
    sep ∉ l := fun hm => by
  rw [hall sep hm] at hsep
  cases hsep

theorem mem_of_head?_eq {α : Type} {l : List α} {c : α} (hc : l.head? = some c) :
    c ∈ l := by
  have he := List.eq_cons_of_mem_head? (Option.mem_def.mpr hc)
  rw [he]
  exact List.mem_cons_self _ _

theorem parsePyNat_natToChars (n : Nat) : parsePyNat (natToChars n) = some n := by
  obtain ⟨hne, hdig, hval⟩ := natToCharsAux_spec n (n + 1) (Nat.lt_succ_self n)
  have hstrip : pyStrip (natToCharsAux (n + 1) n) = natToCharsAux (n + 1) n := by
    apply pyStrip_eq_self
    · intro c hc
      exact isPySpace_eq_false_of_isDigit (hdig c (mem_of_head?_eq hc))
    · intro c hc
      exact isPySpace_eq_false_of_isDigit
        (hdig c (List.mem_reverse.mp (mem_of_head?_eq hc)))
  show parsePyNat (natToCharsAux (n + 1) n) = some n
  unfold parsePyNat
  rw [hstrip, if_pos ⟨hne, List.all_eq_true.mpr hdig⟩]
  exact congrArg some hval

theorem formatTwoDec_charset (q : ℚ) :
    ∀ c ∈ formatTwoDec q, c.isDigit = true ∨ c = '-' ∨ c = '.' := by
  intro c hc
  unfold formatTwoDec at hc
  rcases List.mem_append.mp hc with hm | hm
  · rcases List.mem_append.mp hm with hm2 | hm2
    · split_ifs at hm2 with hsc
      · rw [List.mem_singleton] at hm2
        exact Or.inr (Or.inl hm2)
      · cases hm2
    · exact Or.inl (natToChars_all_digits _ c hm2)
  · rcases List.mem_cons.mp hm with hm2 | hm2
    · exact Or.inr (Or.inr hm2)
    · unfold twoDigits at hm2
      rcases List.mem_cons.mp hm2 with hm3 | hm3
      · exact Or.inl (hm3 ▸ digitChar_isDigit (Nat.mod_lt _ (by norm_num)))
      · rw [List.mem_singleton] at hm3
        exact Or.inl (hm3 ▸ digitChar_isDigit (Nat.mod_lt _ (by norm_num)))

theorem formatTwoDec_no_char {q : ℚ} {x : Char}
    (h1 : x.isDigit = false) (h2 : x ≠ '-') (h3 : x ≠ '.') :
    x ∉ formatTwoDec q := fun hm => by
  rcases formatTwoDec_charset q x hm with hd | he | he
  · rw [hd] at h1; cases h1
  · exact h2 he
  · exact h3 he

theorem joinSep_cons_of_ne_nil (sep : Char) (f : List Char) {rest : List (List Char)}
    (h : rest ≠ []) : joinSep sep (f :: rest) = f ++ sep :: joinSep sep rest := by
  cases rest with
  | nil => exact absurd rfl h
  | cons g gs => rfl

theorem joinSep_concat (sep : Char) (fs : List (List Char)) (l : List Char)
    (h : fs ≠ []) : joinSep sep (fs ++ [l]) = joinSep sep fs ++ sep :: l := by
  induction fs with
  | nil => exact absurd rfl h
  | cons f rest ih =>
    cases rest with
    | nil => rfl
    | cons g gs =>
      rw [List.cons_append, joinSep_cons_of_ne_nil sep f (by simp),
        joinSep_cons_of_ne_nil sep f (by simp), ih (by simp), List.append_assoc]
      rfl

theorem mem_joinSep {sep : Char} {ls : List (List Char)} {c : Char}
    (hc : c ∈ joinSep sep ls) : c = sep ∨ ∃ l ∈ ls, c ∈ l := by
  induction ls with
  | nil => cases hc
  | cons f rest ih =>
    cases rest with
    | nil =>
      right
      exact ⟨f, List.mem_cons_self f [], hc⟩
    | cons g gs =>
      rw [joinSep_cons_of_ne_nil sep f (by simp)] at hc
      rcases List.mem_append.mp hc with hm | hm
      · exact Or.inr ⟨f, List.mem_cons_self f _, hm⟩
      · rcases List.mem_cons.mp hm with he | hm2
        · exact Or.inl he
        · rcases ih hm2 with he | ⟨l, hl, hcl⟩
          · exact Or.inl he
          · exact Or.inr ⟨l, List.mem_cons_of_mem f hl, hcl⟩

theorem head?_joinSep_cons {sep : Char} {f : List Char} {rest : List (List Char)}
    (h : f ≠ []) : (joinSep sep (f :: rest)).head? = f.head? := by
  cases rest with
  | nil => rfl
  | cons g gs =>
    rw [joinSep_cons_of_ne_nil sep f (by simp)]
    exact List.head?_append_of_ne_nil _ h

theorem lookup_map_replace {α β : Type} [BEq α] [LawfulBEq α]
    (t : List (α × β)) (k : α) (v : β) {r : α} (h : (r == k) = false) :
    List.lookup r (t.map (fun p => bif p.1 == k then (k, v) else p)) =
      List.lookup r t := by
  induction t with
  | nil => rfl
  | cons p t ih =>
    by_cases hpk : (p.1 == k) = true
    · have hrp : (r == p.1) = false := by rw [eq_of_beq hpk]; exact h
      simp only [List.map_cons, hpk, cond_true, List.lookup, h, hrp]
      exact ih
    · rw [Bool.not_eq_true] at hpk
      simp only [List.map_cons, hpk, cond_false, List.lookup]
      cases hrp : r == p.1
      · exact ih
      · rfl

theorem assocSet_cons_of_ne {α β : Type} [BEq α] (p : α × β) (t : List (α × β))
    (k : α) (v : β) (h : (p.1 == k) = false) :
    assocSet (p :: t) k v = p :: assocSet t k v := by
  unfold assocSet
  simp only [List.any_cons, h, Bool.false_or]
  by_cases ht : t.any (fun q => q.1 == k) = true
  · rw [if_pos ht, if_pos ht, List.map_cons]
    simp [h]
  · rw [Bool.not_eq_true] at ht
    rw [ht]
    simp

theorem lookup_assocSet {α β : Type} [BEq α] [LawfulBEq α]
    (m : List (α × β)) (k : α) (v : β) (r : α) :
    List.lookup r (assocSet m k v) =
      if r == k then some v else List.lookup r m := by
  induction m with
  | nil =>
    unfold assocSet
    simp only [List.any_nil, Bool.false_eq_true, if_false, List.nil_append,
      List.lookup]
    cases hrk : r == k <;> simp
  | cons p t ih =>
    by_cases hpk : (p.1 == k) = true
    · unfold assocSet
      simp only [List.any_cons, hpk, Bool.true_or, if_true, List.map_cons,
        cond_true, List.lookup]
      cases hrk : r == k with
      | true => simp
      | false =>
        simp only [if_false, Bool.false_eq_true]
        have hrp : (r == p.1) = false := by rw [eq_of_beq hpk]; exact hrk
        rw [hrp]
        exact lookup_map_replace t k v hrk
    · rw [Bool.not_eq_true] at hpk
      rw [assocSet_cons_of_ne p t k v hpk]
      simp only [List.lookup]
      cases hrp : r == p.1 with
      | true =>
        have hrk : (r == k) = false := by rw [eq_of_beq hrp]; exact hpk
        rw [hrk]
        simp
      | false =>
        rw [ih]



theorem ne_nil_of_isEmpty_eq_false {α : Type} {l : List α}
    (h : l.isEmpty = false) : l ≠ [] := by
  intro he
  rw [he] at h
  simp at h

theorem goodIdB_spec {l : List Char} (h : goodIdB l = true) :
    l ≠ [] ∧ ∀ c ∈ l, isPySpace c = false ∧ c ≠ ',' := by
  unfold goodIdB at h
  simp only [Bool.and_eq_true, Bool.not_eq_true', List.all_eq_true,
    decide_eq_true_eq] at h
  exact ⟨ne_nil_of_isEmpty_eq_false h.1, fun c hc => ⟨(h.2 c hc).1, (h.2 c hc).2⟩⟩

theorem goodLabelB_spec {l : List Char} (h : goodLabelB l = true) :
    l ≠ [] ∧ (∀ c ∈ l, c ≠ '\t' ∧ c ≠ '\n') ∧
      isPySpace (l.headD 'x') = false ∧ isPySpace (l.getLastD 'x') = false := by
  unfold goodLabelB at h
  simp only [Bool.and_eq_true, Bool.not_eq_true', List.all_eq_true,
    decide_eq_true_eq] at h
  exact ⟨ne_nil_of_isEmpty_eq_false h.1.1.1, h.1.1.2, h.1.2, h.2⟩

theorem head?_of_headD {α : Type} {l : List α} {d : α} (h : l ≠ []) :
    l.head? = some (l.headD d) := by
  cases l with
  | nil => exact absurd rfl h
  | cons a as => rfl

theorem reverse_head?_of_getLastD {α : Type} {l : List α} {d : α} (h : l ≠ []) :
    l.reverse.head? = some (l.getLastD d) := by
  cases hr : l.reverse with
  | nil =>
    exact absurd (by simpa using congrArg List.reverse hr) h
  | cons a as =>
    have : l.getLast? = some a := by
      rw [← List.head?_reverse, hr]
      rfl
    rw [List.getLastD_eq_getLast?, this]
    rfl

theorem tab_not_space_member {l : List Char}
    (h : ∀ c ∈ l, isPySpace c = false) : ('\t' : Char) ∉ l := fun hm => by
  have := h _ hm
  exact absurd this (by decide)


theorem head?_ne_nil {α : Type} {l : List α} {c : α} (h : l.head? = some c) :
    l ≠ [] := by
  intro he
  rw [he] at h
  cases h

theorem readClusterRow_clusterLine_nil (species : List (List Char × List Char))
    (gid : List Char)
    (hgid : goodIdB gid = true)
    (hsp : goodLabelB (spField species gid) = true)
    (acc : ReadClustersResult) :
    readClusterRow 0 1 2 7 acc (clusterLine species gid []) =
      some (assocSet acc.1 gid ([] : List (List Char)),
            assocSet acc.2 gid (spField species gid)) := by
  obtain ⟨hspne, hsptab, hsphead, hsplast⟩ := goodLabelB_spec hsp
  obtain ⟨hgne, hgsp⟩ := goodIdB_spec hgid
  have hline : clusterLine species gid [] =
      joinSep '\t' [spField species gid, gid, natToChars 0, "N/A".toList,
        "N/A".toList, "N/A".toList, "N/A".toList] ++ ['\t'] := by
    unfold clusterLine
    simp only [List.length_nil, ne_eq, not_true_eq_false, if_false,
      List.map_nil]
    rw [show joinSep ',' [] = [] from rfl]
    rw [show ([(List.lookup gid species).getD "unclassified".toList, gid,
        natToChars 0] ++ ["N/A".toList, "N/A".toList, "N/A".toList, "N/A".toList] ++
        [[]] : List (List Char)) =
      [(List.lookup gid species).getD "unclassified".toList, gid, natToChars 0,
        "N/A".toList, "N/A".toList, "N/A".toList, "N/A".toList] ++ [[]] by simp]
    rw [joinSep_concat '\t' _ [] (by simp)]
    rfl
  have hAhead : (joinSep '\t' [spField species gid, gid, natToChars 0,
      "N/A".toList, "N/A".toList, "N/A".toList, "N/A".toList]).head? =
      (spField species gid).head? :=
    head?_joinSep_cons hspne
  have hAne : joinSep '\t' [spField species gid, gid, natToChars 0,
      "N/A".toList, "N/A".toList, "N/A".toList, "N/A".toList] ≠ [] := by
    apply head?_ne_nil
    rw [hAhead]
    exact head?_of_headD (d := 'x') hspne
  have hArev : (joinSep '\t' [spField species gid, gid, natToChars 0,
      "N/A".toList, "N/A".toList, "N/A".toList, "N/A".toList]).reverse.head? =
      some 'A' := by
    rw [show ([spField species gid, gid, natToChars 0, "N/A".toList,
        "N/A".toList, "N/A".toList, "N/A".toList] : List (List Char)) =
      [spField species gid, gid, natToChars 0, "N/A".toList, "N/A".toList,
        "N/A".toList] ++ ["N/A".toList] by simp]
    rw [joinSep_concat '\t' _ _ (by simp), List.reverse_append]
    rw [show ('\t' :: "N/A".toList).reverse = ['A', '/', 'N', '\t'] from rfl]
    rfl
  have hstrip : pyStrip (clusterLine species gid []) =
      joinSep '\t' [spField species gid, gid, natToChars 0, "N/A".toList,
        "N/A".toList, "N/A".toList, "N/A".toList] := by
    rw [hline]
    apply pyStrip_append_tab
    · intro c hc
      rw [hAhead, head?_of_headD (d := 'x') hspne] at hc
      injection hc with hc
      rw [hc] at hsphead
      exact hsphead
    · intro c hc
      rw [hArev] at hc
      injection hc with hc
      rw [← hc]
      decide
    · exact hAne
  have hsplit : pySplit '\t' (joinSep '\t' [spField species gid, gid,
      natToChars 0, "N/A".toList, "N/A".toList, "N/A".toList, "N/A".toList]) =
      [spField species gid, gid, natToChars 0, "N/A".toList, "N/A".toList,
        "N/A".toList, "N/A".toList] := by
    apply pySplit_join _ (by simp)
    intro f hf
    simp only [List.mem_cons, List.not_mem_nil, or_false] at hf
    rcases hf with rfl | rfl | rfl | rfl | rfl | rfl | rfl
    · exact fun hm => (hsptab _ hm).1 rfl
    · intro hm
      exact absurd ((hgsp _ hm).1) (by decide)
    · exact not_mem_of_all_digits (natToChars_all_digits 0) (by decide)
    · decide
    · decide
    · decide
    · decide
  unfold readClusterRow
  rw [hstrip, hsplit]
  simp [parsePyNat_natToChars]

theorem pyStrip_eq_self_of_no_space {l : List Char}
    (h : ∀ c ∈ l, isPySpace c = false) : pyStrip l = l := by
  apply pyStrip_eq_self
  · intro c hc
    exact h c (mem_of_head?_eq hc)
  · intro c hc
    exact h c (List.mem_reverse.mp (mem_of_head?_eq hc))

theorem readClusterRow_clusterLine_cons (species : List (List Char × List Char))
    (gid : List Char) (ms : List ClusteredGenome) (hmsne : ms ≠ [])
    (hgid : goodIdB gid = true)
    (hms : ∀ m ∈ ms, goodIdB m.gid = true)
    (hsp : goodLabelB (spField species gid) = true)
    (acc : ReadClustersResult) :
    readClusterRow 0 1 2 7 acc (clusterLine species gid ms) =
      some (assocSet acc.1 gid (ms.map ClusteredGenome.gid),
            assocSet acc.2 gid (spField species gid)) := by
  obtain ⟨hspne, hsptab, hsphead, hsplast⟩ := goodLabelB_spec hsp
  obtain ⟨hgne, hgsp⟩ := goodIdB_spec hgid
  have hidsne : ms.map ClusteredGenome.gid ≠ [] := by
    intro he
    exact hmsne (List.map_eq_nil_iff.mp he)
  have hidgood : ∀ id ∈ ms.map ClusteredGenome.gid,
      id ≠ [] ∧ ∀ c ∈ id, isPySpace c = false ∧ c ≠ ',' := by
    intro id hid
    obtain ⟨m, hm, rfl⟩ := List.mem_map.mp hid
    exact goodIdB_spec (hms m hm)
  have hmjchars : ∀ c ∈ joinSep ',' (ms.map ClusteredGenome.gid),
      isPySpace c = false := by
    intro c hc
    rcases mem_joinSep hc with rfl | ⟨id, hid, hcid⟩
    · decide
    · exact ((hidgood id hid).2 c hcid).1
  have hmjne : joinSep ',' (ms.map ClusteredGenome.gid) ≠ [] := by
    cases hi : ms.map ClusteredGenome.gid with
    | nil => exact absurd hi hidsne
    | cons id rest =>
      apply head?_ne_nil
      rw [head?_joinSep_cons (hidgood id (hi ▸ List.mem_cons_self id rest)).1]
      exact head?_of_headD (d := 'x')
        (hidgood id (hi ▸ List.mem_cons_self id rest)).1
  have hlen0 : ms.length ≠ 0 := fun he => hmsne (List.length_eq_zero.mp he)
  have hline : clusterLine species gid ms =
      joinSep '\t' [spField species gid, gid, natToChars ms.length,
        formatTwoDec (ratMean (ms.map ClusteredGenome.ani)),
        formatTwoDec (ratMin (ms.map ClusteredGenome.ani)),
        formatTwoDec (ratMean (ms.map ClusteredGenome.af)),
        formatTwoDec (ratMin (ms.map ClusteredGenome.af)),
        joinSep ',' (ms.map ClusteredGenome.gid)] := by
    unfold clusterLine
    rw [if_pos hlen0]
    rfl
  have hAhead : (clusterLine species gid ms).head? = (spField species gid).head? := by
    rw [hline]
    exact head?_joinSep_cons hspne
  have hArev : ∀ c, (clusterLine species gid ms).reverse.head? = some c →
      isPySpace c = false := by
    intro c hc
    rw [hline] at hc
    rw [show ([spField species gid, gid, natToChars ms.length,
        formatTwoDec (ratMean (ms.map ClusteredGenome.ani)),
        formatTwoDec (ratMin (ms.map ClusteredGenome.ani)),
        formatTwoDec (ratMean (ms.map ClusteredGenome.af)),
        formatTwoDec (ratMin (ms.map ClusteredGenome.af)),
        joinSep ',' (ms.map ClusteredGenome.gid)] : List (List Char)) =
      [spField species gid, gid, natToChars ms.length,
        formatTwoDec (ratMean (ms.map ClusteredGenome.ani)),
        formatTwoDec (ratMin (ms.map ClusteredGenome.ani)),
        formatTwoDec (ratMean (ms.map ClusteredGenome.af)),
        formatTwoDec (ratMin (ms.map ClusteredGenome.af))] ++
        [joinSep ',' (ms.map ClusteredGenome.gid)] by simp] at hc
    rw [joinSep_concat '\t' _ _ (by simp), List.reverse_append,
      List.reverse_cons, List.head?_append_of_ne_nil _
        (by simpa using hmjne)] at hc
    rw [List.head?_append_of_ne_nil _ (by simpa using hmjne)] at hc
    exact hmjchars c (List.mem_reverse.mp (mem_of_head?_eq hc))
  have hstrip : pyStrip (clusterLine species gid ms) = clusterLine species gid ms := by
    apply pyStrip_eq_self
    · intro c hc
      rw [hAhead, head?_of_headD (d := 'x') hspne] at hc
      injection hc with hc
      rw [hc] at hsphead
      exact hsphead
    · exact hArev
  have hsplit : pySplit '\t' (clusterLine species gid ms) =
      [spField species gid, gid, natToChars ms.length,
        formatTwoDec (ratMean (ms.map ClusteredGenome.ani)),
        formatTwoDec (ratMin (ms.map ClusteredGenome.ani)),
        formatTwoDec (ratMean (ms.map ClusteredGenome.af)),
        formatTwoDec (ratMin (ms.map ClusteredGenome.af)),
        joinSep ',' (ms.map ClusteredGenome.gid)] := by
    rw [hline]
    apply pySplit_join _ (by simp)
    intro f hf
    simp only [List.mem_cons, List.not_mem_nil, or_false] at hf
    rcases hf with rfl | rfl | rfl | rfl | rfl | rfl | rfl | rfl
    · exact fun hm => (hsptab _ hm).1 rfl
    · intro hm
      exact absurd ((hgsp _ hm).1) (by decide)
    · exact not_mem_of_all_digits (natToChars_all_digits _) (by decide)
    · exact formatTwoDec_no_char (by decide) (by decide) (by decide)
    · exact formatTwoDec_no_char (by decide) (by decide) (by decide)
    · exact formatTwoDec_no_char (by decide) (by decide) (by decide)
    · exact formatTwoDec_no_char (by decide) (by decide) (by decide)
    · intro hm
      exact absurd (hmjchars _ hm) (by decide)
  have hmemsplit : pySplit ',' (joinSep ',' (ms.map ClusteredGenome.gid)) =
      ms.map ClusteredGenome.gid := by
    apply pySplit_join _ hidsne
    intro id hid hm
    exact ((hidgood id hid).2 ',' hm).2 rfl
  have hmapstrip : ∀ ids : List (List Char),
      (∀ id ∈ ids, ∀ c ∈ id, isPySpace c = false) → ids.map pyStrip = ids := by
    intro ids hids
    induction ids with
    | nil => rfl
    | cons id rest ih =>
      rw [List.map_cons,
        pyStrip_eq_self_of_no_space (hids id (List.mem_cons_self _ _)),
        ih (fun x hx => hids x (List.mem_cons_of_mem _ hx))]
  have hmapstrip' : (ms.map ClusteredGenome.gid).map pyStrip =
      ms.map ClusteredGenome.gid :=
    hmapstrip _ (fun id hid c hc => ((hidgood id hid).2 c hc).1)
  have hpos : 0 < ms.length := Nat.pos_of_ne_zero hlen0
  unfold readClusterRow
  rw [hstrip, hsplit]
  simp [parsePyNat_natToChars, hmemsplit, hmapstrip', hpos]

theorem flatten_map_newline (L : List (List Char)) :
    (L.map (· ++ ['\n'])).flatten = joinSep '\n' (L ++ [[]]) := by
  induction L with
  | nil => rfl
  | cons x L ih =>
    rw [List.map_cons, List.flatten_cons, ih, List.cons_append,
      joinSep_cons_of_ne_nil '\n' x (by simp), List.append_assoc]
    rfl

theorem no_newline_in_clusterLine (species : List (List Char × List Char))
    (gid : List Char) (ms : List ClusteredGenome)
    (hgid : goodIdB gid = true)
    (hms : ∀ m ∈ ms, goodIdB m.gid = true)
    (hsp : goodLabelB (spField species gid) = true) :
    ('\n' : Char) ∉ clusterLine species gid ms := by
  obtain ⟨hspne, hsptab, hsphead, hsplast⟩ := goodLabelB_spec hsp
  obtain ⟨hgne, hgsp⟩ := goodIdB_spec hgid
  intro hm
  unfold clusterLine at hm
  rcases mem_joinSep hm with he | ⟨f, hf, hcf⟩
  · exact absurd he (by decide)
  · rcases List.mem_append.mp hf with hf2 | hf2
    · rcases List.mem_append.mp hf2 with hf3 | hf3
      · simp only [List.mem_cons, List.not_mem_nil, or_false] at hf3
        rcases hf3 with rfl | rfl | rfl
        · exact (hsptab _ hcf).2 rfl
        · exact absurd ((hgsp _ hcf).1) (by decide)
        · exact absurd (natToChars_all_digits _ _ hcf) (by decide)
      · split_ifs at hf3 with hc
        · simp only [List.mem_cons, List.not_mem_nil, or_false] at hf3
          rcases hf3 with rfl | rfl | rfl | rfl <;>
            exact formatTwoDec_no_char (by decide) (by decide) (by decide) hcf
        · simp only [List.mem_cons, List.not_mem_nil, or_false] at hf3
          rcases hf3 with rfl | rfl | rfl | rfl <;> exact absurd hcf (by decide)
    · rw [List.mem_singleton] at hf2
      subst hf2
      rcases mem_joinSep hcf with he | ⟨id, hid, hcid⟩
      · exact absurd he (by decide)
      · obtain ⟨m, hmm, rfl⟩ := List.mem_map.mp hid
        have := (goodIdB_spec (hms m hmm)).2 _ hcid
        exact absurd this.1 (by decide)

theorem pyLines_write_clusters (clusters : List (List Char × List ClusteredGenome))
    (species : List (List Char × List Char))
    (hnl : ∀ p ∈ clusters.mergeSort (fun a b => decide (b.2.length ≤ a.2.length)),
      ('\n' : Char) ∉ clusterLine species p.1 p.2) :
    pyLines (write_clusters clusters species) =
      clustersHeader ::
        (clusters.mergeSort (fun a b => decide (b.2.length ≤ a.2.length))).map
          (fun p => clusterLine species p.1 p.2) := by
  have hmm : (clusters.mergeSort (fun a b => decide (b.2.length ≤ a.2.length))).map
        (fun p => clusterLine species p.1 p.2 ++ ['\n']) =
      ((clusters.mergeSort (fun a b => decide (b.2.length ≤ a.2.length))).map
        (fun p => clusterLine species p.1 p.2)).map (· ++ ['\n']) := by
    rw [List.map_map]
    rfl
  have hsplitlines : pySplit '\n' (joinSep '\n'
      ((clustersHeader ::
        (clusters.mergeSort (fun a b => decide (b.2.length ≤ a.2.length))).map
          (fun p => clusterLine species p.1 p.2)) ++ [[]])) =
      (clustersHeader ::
        (clusters.mergeSort (fun a b => decide (b.2.length ≤ a.2.length))).map
          (fun p => clusterLine species p.1 p.2)) ++ [[]] := by
    apply pySplit_join _ (by simp)
    intro f hf
    rcases List.mem_append.mp hf with hf2 | hf2
    · rcases List.mem_cons.mp hf2 with rfl | hf3
      · decide
      · obtain ⟨p, hp, rfl⟩ := List.mem_map.mp hf3
        exact hnl p hp
    · rw [List.mem_singleton] at hf2
      subst hf2
      exact List.not_mem_nil _
  have hjoin : clustersHeader ++ '\n' ::
      joinSep '\n' ((clusters.mergeSort (fun a b => decide (b.2.length ≤ a.2.length))).map
        (fun p => clusterLine species p.1 p.2) ++ [[]]) =
      joinSep '\n' ((clustersHeader ::
        (clusters.mergeSort (fun a b => decide (b.2.length ≤ a.2.length))).map
          (fun p => clusterLine species p.1 p.2)) ++ [[]]) := by
    rw [List.cons_append, joinSep_cons_of_ne_nil '\n' _ (by simp)]
  unfold write_clusters
  dsimp only
  rw [hmm, flatten_map_newline, hjoin]
  unfold pyLines
  dsimp only
  rw [hsplitlines, List.getLast?_concat, if_pos rfl, List.dropLast_concat]


theorem foldlM_readClusterRow (species : List (List Char × List Char))
    (rows : List (List Char × List ClusteredGenome))
    (hwf : ∀ p ∈ rows, goodIdB p.1 = true ∧ (∀ m ∈ p.2, goodIdB m.gid = true) ∧
      goodLabelB (spField species p.1) = true) :
    ∀ acc, (rows.map (fun p => clusterLine species p.1 p.2)).foldlM
        (readClusterRow 0 1 2 7) acc =
      some (rows.foldl (applyCluster species) acc) := by
  induction rows with
  | nil => intro acc; rfl
  | cons p t ih =>
    intro acc
    obtain ⟨h1, h2, h3⟩ := hwf p (List.mem_cons_self p t)
    have hrow : readClusterRow 0 1 2 7 acc (clusterLine species p.1 p.2) =
        some (applyCluster species acc p) := by
      cases hms : p.2 with
      | nil =>
        unfold applyCluster
        rw [hms]
        simpa using readClusterRow_clusterLine_nil species p.1 h1 h3 acc
      | cons m mrest =>
        unfold applyCluster
        rw [hms]
        have := readClusterRow_clusterLine_cons species p.1 (m :: mrest)
          (by simp) h1 (by rw [← hms]; exact h2) h3 acc
        exact this
    rw [List.map_cons, List.foldlM_cons, hrow]
    simp only [Option.bind, List.foldl_cons]
    exact ih (fun q hq => hwf q (List.mem_cons_of_mem p hq)) _

theorem lookup_eq_none_of_not_mem_keys {α β : Type} [BEq α] [LawfulBEq α]
    {l : List (α × β)} {r : α} (h : r ∉ l.map Prod.fst) :
    List.lookup r l = none := by
  induction l with
  | nil => rfl
  | cons p t ih =>
    simp only [List.map_cons, List.mem_cons, not_or] at h
    have hrp : (r == p.1) = false := by
      rw [beq_eq_false_iff_ne]
      exact h.1
    simp only [List.lookup, hrp]
    exact ih h.2

theorem foldl_applyCluster_not_mem (species : List (List Char × List Char))
    (rows : List (List Char × List ClusteredGenome)) (acc : ReadClustersResult)
    (r : List Char) (h : r ∉ rows.map Prod.fst) :
    List.lookup r (rows.foldl (applyCluster species) acc).1 =
      List.lookup r acc.1 ∧
    List.lookup r (rows.foldl (applyCluster species) acc).2 =
      List.lookup r acc.2 := by
  induction rows generalizing acc with
  | nil => exact ⟨rfl, rfl⟩
  | cons p t ih =>
    simp only [List.map_cons, List.mem_cons, not_or] at h
    have hrp : (r == p.1) = false := by
      rw [beq_eq_false_iff_ne]
      exact h.1
    rw [List.foldl_cons]
    obtain ⟨e1, e2⟩ := ih (applyCluster species acc p) (by
      intro hm
      exact h.2 hm)
    constructor
    · rw [e1]
      unfold applyCluster
      rw [lookup_assocSet, hrp]
      simp
    · rw [e2]
      unfold applyCluster
      rw [lookup_assocSet, hrp]
      simp

theorem foldl_applyCluster_mem (species : List (List Char × List Char))
    (rows : List (List Char × List ClusteredGenome)) (acc : ReadClustersResult)
    (gid : List Char) (ms : List ClusteredGenome)
    (hnd : (rows.map Prod.fst).Nodup) (hmem : (gid, ms) ∈ rows) :
    List.lookup gid (rows.foldl (applyCluster species) acc).1 =
      some (ms.map ClusteredGenome.gid) ∧
    List.lookup gid (rows.foldl (applyCluster species) acc).2 =
      some (spField species gid) := by
  induction rows generalizing acc with
  | nil => cases hmem
  | cons p t ih =>
    rw [List.map_cons, List.nodup_cons] at hnd
    rcases List.mem_cons.mp hmem with he | hm
    · have hkeys : gid ∉ t.map Prod.fst := by
        rw [← he] at hnd
        exact hnd.1
      rw [List.foldl_cons]
      obtain ⟨e1, e2⟩ := foldl_applyCluster_not_mem species t
        (applyCluster species acc p) gid hkeys
      rw [e1, e2]
      unfold applyCluster
      rw [← he]
      constructor
      · rw [lookup_assocSet]
        simp
      · rw [lookup_assocSet]
        simp
    · rw [List.foldl_cons]
      exact ih _ hnd.2 hm

theorem lookup_map_pair_of_mem {β γ : Type}
    {l : List (List Char × β)} {g : List Char × β → γ}
    {gid : List Char} {b : β}
    (hnd : (l.map Prod.fst).Nodup) (hmem : (gid, b) ∈ l) :
    List.lookup gid (l.map (fun p => (p.1, g p))) = some (g (gid, b)) := by
  induction l with
  | nil => cases hmem
  | cons p t ih =>
    rw [List.map_cons, List.nodup_cons] at hnd
    rcases List.mem_cons.mp hmem with he | hm
    · rw [← he]
      simp [List.lookup]
    · have hne : (gid == p.1) = false := by
        rw [beq_eq_false_iff_ne]
        intro he2
        apply hnd.1
        rw [← he2]
        exact List.mem_map.mpr ⟨(gid, b), hm, rfl⟩
      simp only [List.map_cons, List.lookup, hne]
      exact ih hnd.2 hm

/-- C5: writing a cluster mapping with `write_clusters` and reading the
file back with `read_clusters` reconstructs exactly the original
representative-to-member-id-list mapping and the original
representative-to-species-label mapping (restricted to the written
representatives), for well-formed genome ids and species labels;
the ANI/AF statistic columns are not read back. -/
theorem write_clusters_read_clusters
    (clusters : List (List Char × List ClusteredGenome))
    (species : List (List Char × List Char))
    (hid : clusters.all
      (fun p => goodIdB p.1 && p.2.all (fun m => goodIdB m.gid)) = true)
    (hnd : (clusters.map Prod.fst).Nodup)
    (hsp : clusters.all
      (fun p => ((List.lookup p.1 species).map goodLabelB).getD false) = true) :
    ∃ C S, read_clusters (write_clusters clusters species) = some (C, S) ∧
      (∀ r, List.lookup r C =
        List.lookup r (clusters.map (fun p => (p.1, p.2.map ClusteredGenome.gid)))) ∧
      (∀ r, r ∈ clusters.map Prod.fst →
        List.lookup r S = List.lookup r species) ∧
      (∀ r, r ∉ clusters.map Prod.fst → List.lookup r S = none) := by
  have hperm := List.mergeSort_perm clusters
    (fun a b => decide (b.2.length ≤ a.2.length))
  have hndsorted : ((clusters.mergeSort
      (fun a b => decide (b.2.length ≤ a.2.length))).map Prod.fst).Nodup :=
    (hperm.map Prod.fst).nodup_iff.mpr hnd
  have hwf : ∀ p ∈ clusters.mergeSort (fun a b => decide (b.2.length ≤ a.2.length)),
      goodIdB p.1 = true ∧ (∀ m ∈ p.2, goodIdB m.gid = true) ∧
      goodLabelB (spField species p.1) = true := by
    intro p hp
    have hpc : p ∈ clusters := hperm.mem_iff.mp hp
    have h1 := List.all_eq_true.mp hid p hpc
    simp only [Bool.and_eq_true, List.all_eq_true] at h1
    have h2 := List.all_eq_true.mp hsp p hpc
    refine ⟨h1.1, h1.2, ?_⟩
    cases hl : List.lookup p.1 species with
    | none =>
      rw [hl] at h2
      cases h2
    | some sp =>
      rw [hl] at h2
      simp only [Option.map_some', Option.getD_some] at h2
      unfold spField
      rw [hl]
      exact h2
  have hnl : ∀ p ∈ clusters.mergeSort (fun a b => decide (b.2.length ≤ a.2.length)),
      ('\n' : Char) ∉ clusterLine species p.1 p.2 := by
    intro p hp
    obtain ⟨h1, h2, h3⟩ := hwf p hp
    exact no_newline_in_clusterLine species p.1 p.2 h1 h2 h3
  have hlines := pyLines_write_clusters clusters species hnl
  have hfold := foldlM_readClusterRow species
    (clusters.mergeSort (fun a b => decide (b.2.length ≤ a.2.length))) hwf ([], [])
  have hi0 : listIndexOf "NCBI species".toList
      (pySplit '\t' (pyStrip clustersHeader)) = some 0 := by decide
  have hi1 : listIndexOf "Type genome".toList
      (pySplit '\t' (pyStrip clustersHeader)) = some 1 := by decide
  have hi2 : listIndexOf "No. clustered genomes".toList
      (pySplit '\t' (pyStrip clustersHeader)) = some 2 := by decide
  have hi7 : listIndexOf "Clustered genomes".toList
      (pySplit '\t' (pyStrip clustersHeader)) = some 7 := by decide
  refine ⟨((clusters.mergeSort (fun a b => decide (b.2.length ≤ a.2.length))).foldl
      (applyCluster species) ([], [])).1,
    ((clusters.mergeSort (fun a b => decide (b.2.length ≤ a.2.length))).foldl
      (applyCluster species) ([], [])).2, ?_, ?_, ?_, ?_⟩
  · unfold read_clusters
    rw [hlines]
    simp only [List.headD_cons, hi0, hi1, hi2, hi7, Option.some_bind,
      List.drop_succ_cons, List.drop_zero]
    exact hfold
  · intro r
    by_cases hr : r ∈ clusters.map Prod.fst
    · obtain ⟨p, hp, he⟩ := List.mem_map.mp hr
      have hpair : (r, p.2) ∈ clusters := by
        rw [← he]
        exact hp
      have hpairs : (r, p.2) ∈ clusters.mergeSort
          (fun a b => decide (b.2.length ≤ a.2.length)) :=
        hperm.mem_iff.mpr hpair
      rw [(foldl_applyCluster_mem species _ ([], []) r p.2 hndsorted hpairs).1,
        lookup_map_pair_of_mem hnd hpair]
    · have hrs : r ∉ ((clusters.mergeSort
          (fun a b => decide (b.2.length ≤ a.2.length))).map Prod.fst) := by
        intro hm
        exact hr ((hperm.map Prod.fst).mem_iff.mp hm)
      rw [(foldl_applyCluster_not_mem species _ ([], []) r hrs).1]
      have hnot : r ∉ (clusters.map
          (fun p => (p.1, p.2.map ClusteredGenome.gid))).map Prod.fst := by
        rw [List.map_map]
        exact hr
      rw [lookup_eq_none_of_not_mem_keys hnot]
      rfl
  · intro r hr
    obtain ⟨p, hp, he⟩ := List.mem_map.mp hr
    have hpair : (r, p.2) ∈ clusters := by
      rw [← he]
      exact hp
    have hpairs : (r, p.2) ∈ clusters.mergeSort
        (fun a b => decide (b.2.length ≤ a.2.length)) :=
      hperm.mem_iff.mpr hpair
    rw [(foldl_applyCluster_mem species _ ([], []) r p.2 hndsorted hpairs).2]
    have h2 := List.all_eq_true.mp hsp _ hpair
    cases hl : List.lookup r species with
    | none =>
      rw [show (r, p.2).1 = r from rfl, hl] at h2
      cases h2
    | some sp =>
      unfold spField
      rw [hl]
      rfl
  · intro r hr
    have hrs : r ∉ ((clusters.mergeSort
        (fun a b => decide (b.2.length ≤ a.2.length))).map Prod.fst) := by
      intro hm
      exact hr ((hperm.map Prod.fst).mem_iff.mp hm)
    rw [(foldl_applyCluster_not_mem species _ ([], []) r hrs).2]
    rfl

/-- Witness for C5: the concrete scenario of the claim, a cluster
`RS_GCF_1 -> [RS_GCF_2, RS_GCF_3]` with species `s__Foo bar` and member
ANI/AF values (99.1, 0.95) and (98.0, 0.90). -/
theorem write_clusters_read_clusters_witness :
    ∃ C S, read_clusters (write_clusters
        [("RS_GCF_1".toList,
          [⟨"RS_GCF_2".toList, 99.1, 0.95⟩, ⟨"RS_GCF_3".toList, 98.0, 0.90⟩])]
        [("RS_GCF_1".toList, "s__Foo bar".toList)]) = some (C, S) ∧
      (∀ r, List.lookup r C = List.lookup r
        [("RS_GCF_1".toList, ["RS_GCF_2".toList, "RS_GCF_3".toList])]) ∧
      (∀ r, r ∈ ["RS_GCF_1".toList] →
        List.lookup r S = List.lookup r [("RS_GCF_1".toList, "s__Foo bar".toList)]) ∧
      (∀ r, r ∉ ["RS_GCF_1".toList] → List.lookup r S = none) :=
  write_clusters_read_clusters
    [("RS_GCF_1".toList,
      [⟨"RS_GCF_2".toList, 99.1, 0.95⟩, ⟨"RS_GCF_3".toList, 98.0, 0.90⟩])]
    [("RS_GCF_1".toList, "s__Foo bar".toList)]
    (by decide) (by decide) (by decide)

end GenomeTreeTk
